import Mathlib

/-!
Verification of the SmartSanitary boundary / classification / tagging workflow
(`BvdK.extension/.../Beck&vd_kroef_bv_01.pushbutton/script.py`).

Coordinates are modelled as rationals (the Python code uses floats; all the
properties checked here are exact comparisons and arithmetic on small inputs).
-/

namespace SmartSanitary

/-- A 3D point (Revit `XYZ`). -/
structure Pt3 where
  x : ℚ
  y : ℚ
  z : ℚ
deriving DecidableEq, Repr

/-- A line segment: ordered pair of endpoints (`(start, end)` tuples built in
`select_boundary_and_gather`). -/
abbrev Seg := Pt3 × Pt3

/-- The default tolerance `tol=1e-6` of `points_are_close`. -/
def tol0 : ℚ := 1 / 1000000

/-- Model of `points_are_close(pt1, pt2, tol)`: componentwise absolute difference
strictly below `tol`. -/
def points_are_close (p q : Pt3) (tol : ℚ) : Bool :=
  |p.x - q.x| < tol && |p.y - q.y| < tol && |p.z - q.z| < tol

/-- The inner `for idx, seg in enumerate(segments)` scan of
`order_segments_to_polygon`: find the first segment in the pool one of whose
endpoints is close to `lastPt`; return the opposite endpoint and the pool with
that segment removed. -/
def findCloseSeg (lastPt : Pt3) : List Seg → Option (Pt3 × List Seg)
  | [] => none
  | (a, b) :: rest =>
    if points_are_close lastPt a tol0 then some (b, rest)
    else if points_are_close lastPt b tol0 then some (a, rest)
    else
      match findCloseSeg lastPt rest with
      | some (p, rest') => some (p, (a, b) :: rest')
      | none => none

theorem findCloseSeg_length {lastPt : Pt3} :
    ∀ {pool : List Seg} {p : Pt3} {rest : List Seg},
      findCloseSeg lastPt pool = some (p, rest) → rest.length < pool.length := by
  intro pool
  induction pool with
  | nil => intro p rest h; simp [findCloseSeg] at h
  | cons s tail ih =>
    intro p rest h
    obtain ⟨a, b⟩ := s
    simp only [findCloseSeg] at h
    split at h
    · cases h; simp
    · split at h
      · cases h; simp
      · revert h
        split
        · next p' rest' heq =>
          intro h
          cases h
          have := ih heq
          simpa using Nat.succ_lt_succ this
        · intro h; cases h

/-- The `while segments and changed` loop of `order_segments_to_polygon`,
with explicit fuel (each iteration removes exactly one segment from the pool,
so `pool.length` fuel runs the loop to completion; `findCloseSeg_length`).
`lastPt` is the current last point of the chain (`polygon[-1]`), `restRev` the rest
of the chain in reverse (so the Python `polygon` list is
`restRev.reverse ++ [lastPt]`), and `pool` the remaining segments. -/
def chainLoopFuel : Nat → Pt3 → List Pt3 → List Seg → Pt3 × List Pt3 × List Seg
  | 0, lastPt, restRev, pool => (lastPt, restRev, pool)
  | fuel + 1, lastPt, restRev, pool =>
    match findCloseSeg lastPt pool with
    | none => (lastPt, restRev, pool)
    | some (p, pool') => chainLoopFuel fuel p (lastPt :: restRev) pool'

/-- The chaining loop run with enough fuel to consume the whole pool. -/
def chainLoop (lastPt : Pt3) (restRev : List Pt3) (pool : List Seg) :
    Pt3 × List Pt3 × List Seg :=
  chainLoopFuel pool.length lastPt restRev pool

/-- Model of `order_segments_to_polygon(segments)`: seed the chain with the first
segment, greedily extend it, then — if the first and last points of the chain are
close — pop the last point and return the polygon.  (The Python code performs
no check that the pool was fully consumed.) -/
def order_segments_to_polygon (segments : List Seg) : Option (List Pt3) :=
  match segments with
  | [] => none
  | (a, b) :: rest =>
    let r := chainLoop b [a] rest
    if points_are_close a r.1 tol0 then some r.2.1.reverse else none

/-- Leftover segment pool after the chaining loop (empty iff every input
segment was consumed into the chain). -/
def leftoverPool (segments : List Seg) : List Seg :=
  match segments with
  | [] => []
  | (a, b) :: rest => (chainLoop b [a] rest).2.2

/-- The closing condition actually tested by `order_segments_to_polygon`:
the final point of the chain is close to its first point. -/
def chainCloses (segments : List Seg) : Bool :=
  match segments with
  | [] => false
  | (a, b) :: rest => points_are_close a (chainLoop b [a] rest).1 tol0

/-! ### Point-in-polygon ray casting (`is_point_inside_polygon`) -/

/-- The literal `1e-12` used as fallback denominator. -/
def eps12 : ℚ := 1 / 1000000000000

/-- The denominator `((yj - yi) or 1e-12)`: the Python `or` yields `1e-12`
exactly when `yj - yi` is (floating-point) zero. -/
def edgeDenom (yi yj : ℚ) : ℚ :=
  if yj - yi = 0 then eps12 else yj - yi

/-- The straddle test `(yi > y) != (yj > y)`. -/
def straddles (y yi yj : ℚ) : Bool :=
  decide (yi > y) != decide (yj > y)

/-- One iteration of the `for i in range(n)` loop of
`is_point_inside_polygon`: `pi` is `polygon[i]`, `pj` is `polygon[j]`. -/
def raycastStep (x y : ℚ) (inside : Bool) (pj pi : Pt3) : Bool :=
  if straddles y pi.y pj.y &&
      decide (x < (pj.x - pi.x) * (y - pi.y) / edgeDenom pi.y pj.y + pi.x) then
    !inside
  else inside

/-- Model of `is_point_inside_polygon(point, polygon)`: even-odd ray casting over the
edges `(polygon[j], polygon[i])` with `j = i - 1` (and `j = n - 1` for
`i = 0`), starting from `inside = False`. -/
def is_point_inside_polygon (point : Pt3) (polygon : List Pt3) : Bool :=
  match polygon.getLast? with
  | none => false
  | some lastP =>
    ((polygon.zip (lastP :: polygon.dropLast)).foldl
      (fun inside pr => raycastStep point.x point.y inside pr.2 pr.1) false)

/-! ### Region gathering (`select_boundary_and_gather`) -/

/-- A candidate entity as seen by the region filter: an id plus an optional
bounding box (`elem.get_BoundingBox(view)` may return `None`). -/
structure ElemE where
  id : Nat
  bbox : Option (Pt3 × Pt3)
deriving DecidableEq, Repr

/-- The bounding-box center `XYZ((Min+Max)/2, ...)`. -/
def bboxCenter (b : Pt3 × Pt3) : Pt3 :=
  ⟨(b.1.x + b.2.x) / 2, (b.1.y + b.2.y) / 2, (b.1.z + b.2.z) / 2⟩

/-- The element-gathering loop: keep elements having a bounding box whose
center is inside the polygon. -/
def gatherInside (polygon : List Pt3) (elems : List ElemE) : List ElemE :=
  elems.filter fun e =>
    match e.bbox with
    | some b => is_point_inside_polygon (bboxCenter b) polygon
    | none => false

/-! ### Region bounding box (`get_region_bounding_box`) -/

/-- A raw bounding box whose `Min` coordinates may be `float("inf")`
(modelled as `none`); `Max` coordinates are plain values. -/
structure BBoxR where
  minX : Option ℚ
  minY : Option ℚ
  minZ : Option ℚ
  maxX : ℚ
  maxY : ℚ
  maxZ : ℚ
deriving DecidableEq, Repr

/-- An element as seen by `get_region_bounding_box`. -/
structure ElemR where
  bbox : Option BBoxR
deriving DecidableEq, Repr

/-- Running extremes `(min_x, min_y, min_z, max_x, max_y, max_z)`;
`none` models `valid_found = False`. -/
def regionFold (acc : Option (ℚ × ℚ × ℚ × ℚ × ℚ × ℚ)) (e : ElemR) :
    Option (ℚ × ℚ × ℚ × ℚ × ℚ × ℚ) :=
  match e.bbox with
  | none => acc
  | some b =>
    match b.minX, b.minY, b.minZ with
    | some mx, some my, some mz =>
      match acc with
      | none => some (mx, my, mz, b.maxX, b.maxY, b.maxZ)
      | some (ax, ay, az, bx, by_, bz) =>
        some (min ax mx, min ay my, min az mz,
              max bx b.maxX, max by_ b.maxY, max bz b.maxZ)
    | _, _, _ => acc

/-- Model of `get_region_bounding_box(elements)`: overall min/max corner over all
usable boxes; `(XYZ(0,0,0), XYZ(0,0,0))` when no valid box was found. -/
def get_region_bounding_box (elems : List ElemR) : Pt3 × Pt3 :=
  match elems.foldl regionFold none with
  | none => (⟨0, 0, 0⟩, ⟨0, 0, 0⟩)
  | some (ax, ay, az, bx, by_, bz) => (⟨ax, ay, az⟩, ⟨bx, by_, bz⟩)

/-- The text-note placement corner: `corner = region_min` (both in
`btnPlaceTextNote_Click` and in the main workflow). -/
def textNoteCorner (elems : List ElemR) : Pt3 :=
  (get_region_bounding_box elems).1

/-! ### Base-code parsing (`re.search(r"([\d\.]+)", raw)`) -/

/-- A character is part of a code run iff it is a digit or a dot. -/
def isCodeChar (c : Char) : Bool :=
  c.isDigit || c == '.'

/-- First maximal run of digits-and-dots characters, as a character list. -/
def firstCodeRun : List Char → Option (List Char)
  | [] => none
  | c :: cs =>
    if isCodeChar c then some (c :: cs.takeWhile isCodeChar)
    else firstCodeRun cs

/-- Model of the search `re.search(r"([\d\.]+)", raw)`: the first maximal run of digits and dots
in `raw`, or `none` when no such run exists. -/
def parseBase (raw : String) : Option String :=
  (firstCodeRun raw.data).map List.asString

/-! ### Pipe renumbering (`autoFillPipeTagCodes` / main-workflow renumber) -/

/-- One entry of `pipe_centers` / `pipe_entries`: a row (or list) index
together with the bounding-box-center X and Y of the pipe. -/
structure PipeEntry where
  idx : Nat
  x : ℚ
  y : ℚ
deriving DecidableEq, Repr

/-- The sort key ordering `key=lambda x: (x[1].X, x[1].Y)`: lexicographic on
(X, Y). -/
def pipeLe (a b : PipeEntry) : Prop :=
  a.x < b.x ∨ (a.x = b.x ∧ a.y ≤ b.y)

instance : DecidableRel pipeLe := fun a b =>
  inferInstanceAs (Decidable (_ ∨ _))

instance : IsTotal PipeEntry pipeLe where
  total a b := by
    rcases lt_trichotomy a.x b.x with h | h | h
    · exact Or.inl (Or.inl h)
    · rcases le_total a.y b.y with hy | hy
      · exact Or.inl (Or.inr ⟨h, hy⟩)
      · exact Or.inr (Or.inr ⟨h.symm, hy⟩)
    · exact Or.inr (Or.inl h)

instance : IsTrans PipeEntry pipeLe where
  trans a b c hab hbc := by
    rcases hab with h1 | ⟨h1, h1'⟩ <;> rcases hbc with h2 | ⟨h2, h2'⟩
    · exact Or.inl (h1.trans h2)
    · exact Or.inl (h2 ▸ h1)
    · exact Or.inl (h1 ▸ h2)
    · exact Or.inr ⟨h1.trans h2, h1'.trans h2'⟩

/-- Model of `pipe_centers.sort(...)`: the Python `list.sort` is a stable sort;
insertion sort is stable, so it computes the same list. -/
def sortPipes (entries : List PipeEntry) : List PipeEntry :=
  List.insertionSort pipeLe entries

/-- The numbering loop `for i, (idx, _) in enumerate(pipe_centers, 1): ...
"{}.{}".format(base, i)` (identically `base + "." + str(ctr)` in the main
workflow). -/
def numberFrom (base : String) (i : Nat) : List PipeEntry → List (Nat × String)
  | [] => []
  | e :: rest => (e.idx, base ++ "." ++ toString i) :: numberFrom base (i + 1) rest

/-- Sort the pipe entries and assign `base + "." + i` (1-based) by rank:
the common core of `autoFillPipeTagCodes` and the main-workflow renumber. -/
def renumberPipes (base : String) (entries : List PipeEntry) :
    List (Nat × String) :=
  numberFrom base 1 (sortPipes entries)

/-- The main-workflow base fallback: `base = m.group(1) if m else "0"`. -/
def mainRenumberBase (raw : String) : String :=
  (parseBase raw).getD "0"

/-- The main-workflow renumber pass (lines 1373-1396): parse the base with
fallback `"0"`, then sort and number the pipe entries. -/
def mainRenumber (raw : String) (entries : List PipeEntry) :
    List (Nat × String) :=
  renumberPipes (mainRenumberBase raw) entries

/-! ### Auto-fill action (`autoFillPipeTagCodes`) -/

/-- A grid row as touched by auto-fill: category, writable NewCode, and the
bounding-box center of the underlying element (the handler substitutes
`XYZ(0, 0, 0)` when the box is missing, so the center is always defined). -/
structure FillRow where
  category : String
  newCode : String
  center : Pt3
deriving DecidableEq, Repr

/-- Set the NewCode of the row at list position `i`. -/
def setCode (rows : List FillRow) (i : Nat) (v : String) : List FillRow :=
  rows.enum.map fun p => if p.1 = i then { p.2 with newCode := v } else p.2

/-- Row positions holding a given category (`fit_rows` / `pipe_rows` /
`tag_rows`). -/
def rowsOfCat (rows : List FillRow) (cat : String) : List Nat :=
  (rows.enum.filter fun p => p.2.category = cat).map (·.1)

/-- The `pipe_centers` list: each Pipes row position paired with its center
coordinates. -/
def pipeCenters (rows : List FillRow) : List PipeEntry :=
  (rows.enum.filter fun p => p.2.category = "Pipes").map fun p =>
    ⟨p.1, p.2.center.x, p.2.center.y⟩

/-- Model of `autoFillPipeTagCodes`: parse the base from the text box (on failure show
a message box and return with the grid untouched — `true` in the second
component records the notification); on success override every Pipe Fittings
row to `base`, number the Pipes rows `base.i` in sorted center order, and
mirror the numbering onto the Pipe Tags rows by rank. -/
def autoFillPipeTagCodes (raw : String) (rows : List FillRow) :
    List FillRow × Bool :=
  match parseBase raw with
  | none => (rows, true)
  | some base =>
    let rows1 := (rowsOfCat rows "Pipe Fittings").foldl
      (fun rs i => setCode rs i base) rows
    let assigned := renumberPipes base (pipeCenters rows)
    let rows2 := assigned.foldl (fun rs p => setCode rs p.1 p.2) rows1
    let tagIdx := rowsOfCat rows "Pipe Tags"
    let rows3 := assigned.enum.foldl
      (fun rs p => match tagIdx[p.1]? with
        | some t => setCode rs t p.2.2
        | none => rs) rows2
    (rows3, false)

/-! ### Final commit (`Update Comments` transaction, lines 1403-1428) -/

/-- A document element targeted by the commit: id, current `Comments` value,
and whether the parameter is read-only. -/
structure DocElem where
  id : Nat
  comments : String
  readOnly : Bool
deriving DecidableEq, Repr

/-- A result row as committed: parsed id (rows with a missing or non-integer
id are skipped, modelled by `none`), category and edited NewCode. -/
structure RowE where
  id : Option Nat
  category : String
  newCode : String
deriving DecidableEq, Repr

/-- The value written to `Comments` for one row: fittings get the raw
`result["TextNote"]` text, every other category gets its `NewCode`. -/
def committedCode (textNote : String) (r : RowE) : String :=
  if r.category = "Pipe Fittings" then textNote else r.newCode

/-- Commit one row: skip when the id is unparsable; otherwise write
`committedCode` into the matching, writable element. -/
def commitRow (textNote : String) (elems : List DocElem) (r : RowE) :
    List DocElem :=
  match r.id with
  | none => elems
  | some i =>
    elems.map fun e =>
      if e.id = i ∧ ¬e.readOnly then { e with comments := committedCode textNote r }
      else e

/-- The whole `Update Comments` transaction. -/
def updateComments (textNote : String) (rows : List RowE)
    (elems : List DocElem) : List DocElem :=
  rows.foldl (commitRow textNote) elems

/-! ### Main workflow commit ordering (lines 1403-1584) -/

/-- Document state touched by the tail of the main workflow. -/
structure Doc7 where
  elems : List DocElem
  notes : List String
  views : List String
  sheets : List String
deriving DecidableEq, Repr

/-- Outcome of the workflow tail. -/
inductive Outcome7 where
  | ok
  | duplicateViewName
  | duplicateSheet
deriving DecidableEq, Repr

/-- Computation of `base` for the view/sheet naming: `m.group(1) if m else
result["TextNote"].strip()` (the TextNote field is already stripped). -/
def mainBase (textNote : String) : String :=
  (parseBase textNote).getD textNote

/-- The tail of the main workflow, transaction by transaction: the
`Update Comments` transaction commits, then (when no text note was placed
from the form) the text note is placed and committed, then the cropped-view
transaction runs — rolled back when `base` collides with an existing view
name — and finally sheet creation exits when `base` collides with an
existing sheet number.  `rows` are the result rows after the renumber
pass. -/
def mainCommitPhase (textNote : String) (notePlaced : Bool)
    (rows : List RowE) (d : Doc7) : Doc7 × Outcome7 :=
  let d1 : Doc7 := { d with elems := updateComments textNote rows d.elems }
  let d2 : Doc7 :=
    if notePlaced then d1 else { d1 with notes := d1.notes ++ [textNote] }
  let base := mainBase textNote
  if base ∈ d2.views then (d2, Outcome7.duplicateViewName)
  else
    let d3 : Doc7 := { d2 with views := d2.views ++ [base] }
    if base ∈ d3.sheets then (d3, Outcome7.duplicateSheet)
    else ({ d3 with sheets := d3.sheets ++ [base] }, Outcome7.ok)

/-! ### Tag add/remove (`dataGrid_CellContentClick` and
`bulkAddRemoveTags_Click`) -/

/-- A pipe tag (`IndependentTag`): its element id, the id of the tagged host
pipe, and the placement point. -/
structure MarkerE where
  id : Nat
  hostId : Nat
  pos : Pt3
deriving DecidableEq, Repr

/-- The document as seen by the tag handlers: host pipes (id plus bounding
box — a pipe deleted externally is simply absent), the pipe tags, and the
id the next created element receives. -/
structure TagDoc where
  hosts : List (Nat × (Pt3 × Pt3))
  markers : List MarkerE
  nextId : Nat
deriving DecidableEq, Repr

/-- A grid row as touched by the tag handlers. -/
structure GRow where
  id : Nat
  category : String
  tagStatus : String
deriving DecidableEq, Repr

/-- Grid-plus-document state. -/
structure TagState where
  doc : TagDoc
  rows : List GRow
deriving DecidableEq, Repr

/-- Model of `doc.GetElement(ElementId(host_id))` for a pipe. -/
def lookupHost (d : TagDoc) (i : Nat) : Option (Pt3 × Pt3) :=
  (d.hosts.find? fun h => h.1 = i).map (·.2)

/-- Setting `row.Cells["TagStatus"].Value` on the clicked host row. -/
def setPipeStatus (hostId : Nat) (v : String) (r : GRow) : GRow :=
  if r.category = "Pipes" ∧ r.id = hostId then { r with tagStatus := v } else r

/-- The `Add/Place Tag` branch: `host = doc.GetElement(...)`; when the host
was deleted externally `host` is `None` and `host.get_BoundingBox(...)`
raises `AttributeError`, aborting the handler.  Otherwise an
`IndependentTag` is created at the bounding-box center of the host, and the host row
flips to `Remove Tag`, and a new `Pipe Tags` row is appended. -/
def addTagClick (hostId : Nat) (st : TagState) : Except String TagState :=
  match lookupHost st.doc hostId with
  | none => Except.error "AttributeError"
  | some bb =>
    let m : MarkerE := ⟨st.doc.nextId, hostId, bboxCenter bb⟩
    Except.ok
      { doc := { st.doc with
          markers := st.doc.markers ++ [m]
          nextId := st.doc.nextId + 1 }
        rows := st.rows.map (setPipeStatus hostId "Remove Tag") ++
          [⟨m.id, "Pipe Tags", "Remove Tag"⟩] }

/-- The `Remove Tag` branch body (after the host element was resolved):
scan all pipe tags for the first one tagging this host; when found, delete
it, flip the host row back to `Add/Place Tag`, and remove the first
`Pipe Tags` grid row carrying the id of the deleted tag. -/
def removeTagClick (hostId : Nat) (st : TagState) : TagState :=
  match st.doc.markers.find? (fun m => m.hostId = hostId) with
  | none => st
  | some m =>
    { doc := { st.doc with
        markers := st.doc.markers.eraseP (fun t => t.id = m.id) }
      rows :=
        (st.rows.map (setPipeStatus hostId "Add/Place Tag")).eraseP
          (fun r => r.category = "Pipe Tags" ∧ r.id = m.id) }

/-- One iteration of the `for row in rows_to_process` loop of
`bulkAddRemoveTags_Click`: the `Remove Tag` branch starts with
`host.Id.IntegerValue`, which also raises `AttributeError` when the host is
gone. -/
def bulkStep (st : TagState) (r : GRow) : Except String TagState :=
  if r.tagStatus = "Add/Place Tag" then addTagClick r.id st
  else if r.tagStatus = "Remove Tag" then
    match lookupHost st.doc r.id with
    | none => Except.error "AttributeError"
    | some _ => Except.ok (removeTagClick r.id st)
  else Except.ok st

/-- The bulk loop: rows are processed in order; an uncaught exception in one
iteration aborts the handler, leaving the already processed rows applied and
the remaining rows untouched.  No updated/skipped counting exists on this
path. -/
def bulkLoop (st : TagState) : List GRow → TagState × Option String
  | [] => (st, none)
  | r :: rest =>
    match bulkStep st r with
    | Except.ok st' => bulkLoop st' rest
    | Except.error e => (st, some e)

/-- Model of `bulkAddRemoveTags_Click`: processes every `Pipes` row of the grid
(regardless of the current selection). -/
def bulkAddRemoveTags (st : TagState) : TagState × Option String :=
  bulkLoop st (st.rows.filter fun r => r.category = "Pipes")

/-! ## Claim theorems -/

/-- C1 counterexample:  The chain `(0,0,0)-(1,0,0)` closes via the two
mutually inverse segments while the third segment `(5,5,0)-(6,5,0)` is never
consumed — yet `order_segments_to_polygon` still returns a polygon, so
success does not require the segment pool to be fully consumed. -/
theorem c1_closure_without_consumption :
    order_segments_to_polygon
        [(⟨0, 0, 0⟩, ⟨1, 0, 0⟩), (⟨1, 0, 0⟩, ⟨0, 0, 0⟩), (⟨5, 5, 0⟩, ⟨6, 5, 0⟩)] =
      some [⟨0, 0, 0⟩, ⟨1, 0, 0⟩] ∧
    leftoverPool
        [(⟨0, 0, 0⟩, ⟨1, 0, 0⟩), (⟨1, 0, 0⟩, ⟨0, 0, 0⟩), (⟨5, 5, 0⟩, ⟨6, 5, 0⟩)] =
      [(⟨5, 5, 0⟩, ⟨6, 5, 0⟩)] :=
  ⟨by with_unfolding_all rfl, by with_unfolding_all rfl⟩

/-- C1 amended:  The boundary resolver returns a polygon exactly when
the final point of the greedily built chain coincides with its first point within
the tolerance; consumption of the whole segment pool is not checked, so
leftover segments do not cause failure, while a chain that does not close
(e.g. a segment set missing one connecting link) yields no polygon. -/
theorem c1_success_iff_chain_closes :
    ∀ segments : List Seg,
      (order_segments_to_polygon segments).isSome = chainCloses segments := by
  intro segments
  cases segments with
  | nil => rfl
  | cons s rest =>
    obtain ⟨a, b⟩ := s
    simp only [order_segments_to_polygon, chainCloses]
    split <;> simp_all

/-- C6:  An entity is kept by the region gather iff it has a bounding box
whose center lies inside the polygon under the even-odd ray cast; entities
without a bounding box are dropped without error; `(0,0)` is inside the
square `(-5,-5),(5,-5),(5,5),(-5,5)` and `(100,100)` is outside it. -/
theorem c6_region_membership :
    (∀ (polygon : List Pt3) (elems : List ElemE) (e : ElemE),
      e ∈ gatherInside polygon elems ↔
        e ∈ elems ∧ ∃ b, e.bbox = some b ∧
          is_point_inside_polygon (bboxCenter b) polygon = true) ∧
    is_point_inside_polygon ⟨0, 0, 0⟩
      [⟨-5, -5, 0⟩, ⟨5, -5, 0⟩, ⟨5, 5, 0⟩, ⟨-5, 5, 0⟩] = true ∧
    is_point_inside_polygon ⟨100, 100, 0⟩
      [⟨-5, -5, 0⟩, ⟨5, -5, 0⟩, ⟨5, 5, 0⟩, ⟨-5, 5, 0⟩] = false := by
  refine ⟨?_, by with_unfolding_all rfl, by with_unfolding_all rfl⟩
  intro polygon elems e
  simp only [gatherInside, List.mem_filter]
  cases hb : e.bbox with
  | none => simp [hb]
  | some b => simp [hb]

/-- C6 witness, instantiating the membership characterization: an element
centered at the origin is gathered, next to an element with no box. -/
theorem c6_region_membership_witness :
    (⟨1, some (⟨-1, -1, 0⟩, ⟨1, 1, 0⟩)⟩ : ElemE) ∈
      gatherInside [⟨-5, -5, 0⟩, ⟨5, -5, 0⟩, ⟨5, 5, 0⟩, ⟨-5, 5, 0⟩]
        [⟨1, some (⟨-1, -1, 0⟩, ⟨1, 1, 0⟩)⟩, ⟨2, none⟩] :=
  (c6_region_membership.1 _ _ _).mpr
    ⟨List.mem_cons_self _ _, ⟨_, rfl, by with_unfolding_all rfl⟩⟩

/-- C9:  The ray cast never divides by zero: an edge whose endpoints have
equal Y fails the straddle test, and the denominator `(yj - yi) or 1e-12`
used by `raycastStep` is nonzero in every case. -/
theorem c9_denominator_nonzero :
    ∀ y yi yj : ℚ,
      (straddles y yi yj = true → yj - yi ≠ 0) ∧ edgeDenom yi yj ≠ 0 := by
  intro y yi yj
  constructor
  · intro hs hz
    have hy : yj = yi := by linarith [sub_eq_zero.mp hz]
    rw [hy] at hs
    simp [straddles] at hs
  · unfold edgeDenom
    split
    · norm_num [eps12]
    · assumption

/-- C9 witness, at `y = 0`, `yi = 1`, `yj = -1` (a straddling edge). -/
theorem c9_denominator_nonzero_witness :
    ((-1 : ℚ) - 1 ≠ 0) ∧ edgeDenom 1 (-1) ≠ 0 :=
  ⟨(c9_denominator_nonzero 0 1 (-1)).1 (by with_unfolding_all rfl),
   (c9_denominator_nonzero 0 1 (-1)).2⟩

/-- Unusable box test for an element, used by for `get_region_bounding_box`: either
absent, or one of its `Min` coordinates is `float("inf")`. -/
def isUnusable (e : ElemR) : Prop :=
  e.bbox = none ∨
    ∃ b, e.bbox = some b ∧ (b.minX = none ∨ b.minY = none ∨ b.minZ = none)

theorem regionFold_all_unusable :
    ∀ elems : List ElemR, (∀ e ∈ elems, isUnusable e) →
      elems.foldl regionFold none = none := by
  intro elems h
  induction elems with
  | nil => rfl
  | cons e rest ih =>
    have he := h e (by simp)
    have hrest : ∀ x ∈ rest, isUnusable x := fun x hx => h x (by simp [hx])
    have hstep : regionFold none e = none := by
      rcases he with hb | ⟨b, hb, h3⟩
      · simp [regionFold, hb]
      · cases hmx : b.minX <;> cases hmy : b.minY <;> cases hmz : b.minZ <;>
          simp_all [regionFold, hb]
    rw [List.foldl_cons, hstep]
    exact ih hrest

/-- C10:  When no element offers a usable bounding box, the region box
degenerates to `((0,0,0), (0,0,0))` instead of failing, and the text-note
corner (`corner = region_min`) is consequently the origin. -/
theorem c10_degenerate_region_box :
    ∀ elems : List ElemR, (∀ e ∈ elems, isUnusable e) →
      get_region_bounding_box elems = (⟨0, 0, 0⟩, ⟨0, 0, 0⟩) ∧
      textNoteCorner elems = ⟨0, 0, 0⟩ := by
  intro elems h
  have hf := regionFold_all_unusable elems h
  refine ⟨?_, ?_⟩
  · simp [get_region_bounding_box, hf]
  · simp [textNoteCorner, get_region_bounding_box, hf]

/-- The sort key of one `pipe_centers` entry: the pair `(X, Y)`. -/
def centerKey (e : PipeEntry) : ℚ × ℚ :=
  (e.x, e.y)

theorem pipeLe_of_key_eq {a b : PipeEntry} (h : centerKey a = centerKey b) :
    pipeLe a b := by
  obtain ⟨hx, hy⟩ := Prod.mk.injEq .. ▸ h
  exact Or.inr ⟨hx, le_of_eq hy⟩

theorem key_ne_of_not_pipeLe {a b : PipeEntry} (h : ¬pipeLe a b) :
    centerKey a ≠ centerKey b :=
  fun hk => h (pipeLe_of_key_eq hk)

theorem filter_key_orderedInsert (a : PipeEntry) (k : ℚ × ℚ) :
    ∀ l : List PipeEntry,
      (List.orderedInsert pipeLe a l).filter (fun e => centerKey e = k) =
        if centerKey a = k then
          a :: l.filter (fun e => centerKey e = k)
        else l.filter (fun e => centerKey e = k) := by
  intro l
  induction l with
  | nil =>
    simp only [List.orderedInsert]
    by_cases ha : centerKey a = k <;> simp [ha]
  | cons b l ih =>
    by_cases hr : pipeLe a b
    · simp only [List.orderedInsert, if_pos hr]
      by_cases ha : centerKey a = k <;> simp [List.filter_cons, ha]
    · have hne : centerKey a ≠ centerKey b := key_ne_of_not_pipeLe hr
      simp only [List.orderedInsert, if_neg hr]
      by_cases ha : centerKey a = k
      · have hb : ¬(centerKey b = k) := fun hbk => hne (ha.trans hbk.symm)
        simp [List.filter_cons, ha, hb, ih]
      · by_cases hb : centerKey b = k <;> simp [List.filter_cons, ha, hb, ih]

theorem filter_key_insertionSort (k : ℚ × ℚ) :
    ∀ l : List PipeEntry,
      (List.insertionSort pipeLe l).filter (fun e => centerKey e = k) =
        l.filter (fun e => centerKey e = k) := by
  intro l
  induction l with
  | nil => rfl
  | cons a l ih =>
    simp only [List.insertionSort]
    rw [filter_key_orderedInsert]
    by_cases ha : centerKey a = k <;> simp [List.filter_cons, ha, ih]

/-- Stability of the pipe sort: entries with any fixed center key keep their
input order. -/
theorem sortPipes_stable (entries : List PipeEntry) (k : ℚ × ℚ) :
    (sortPipes entries).filter (fun e => centerKey e = k) =
      entries.filter (fun e => centerKey e = k) :=
  filter_key_insertionSort k entries

theorem numberFrom_getElem? (base : String) :
    ∀ (l : List PipeEntry) (j i : Nat),
      (numberFrom base j l)[i]? =
        l[i]?.map fun e => (e.idx, base ++ "." ++ toString (j + i)) := by
  intro l
  induction l with
  | nil => intro j i; simp [numberFrom]
  | cons e rest ih =>
    intro j i
    cases i with
    | zero => simp [numberFrom]
    | succ i =>
      simp only [numberFrom, List.getElem?_cons_succ]
      rw [ih (j + 1) i, show j + 1 + i = j + (i + 1) from by omega]

/-- C2:  In a code-assignment pass the pipe entries are sorted ascending
by center with primary key X and secondary key Y; the sort is a stable
permutation of the input; the entry of rank `i` (1-based) receives code
`base ++ "." ++ i`; and on the concrete example of the spec (base `"5.1.1"`,
pipes at x = 10, 0, 5 with equal y, input order 0,1,2) the codes are
`5.1.1.1` for x = 0, `5.1.1.2` for x = 5, `5.1.1.3` for x = 10. -/
theorem c2_pipe_renumbering :
    (∀ entries : List PipeEntry, List.Sorted pipeLe (sortPipes entries)) ∧
    (∀ entries : List PipeEntry, List.Perm (sortPipes entries) entries) ∧
    (∀ (entries : List PipeEntry) (k : ℚ × ℚ),
      (sortPipes entries).filter (fun e => centerKey e = k) =
        entries.filter (fun e => centerKey e = k)) ∧
    (∀ (base : String) (entries : List PipeEntry) (i : Nat),
      (renumberPipes base entries)[i]? =
        ((sortPipes entries)[i]?).map fun e =>
          (e.idx, base ++ "." ++ toString (i + 1))) ∧
    renumberPipes "5.1.1" [⟨0, 10, 0⟩, ⟨1, 0, 0⟩, ⟨2, 5, 0⟩] =
      [(1, "5.1.1.1"), (2, "5.1.1.2"), (0, "5.1.1.3")] := by
  refine ⟨?_, ?_, sortPipes_stable, ?_, by with_unfolding_all rfl⟩
  · intro entries
    exact List.sorted_insertionSort pipeLe entries
  · intro entries
    exact List.perm_insertionSort pipeLe entries
  · intro base entries i
    rw [renumberPipes, numberFrom_getElem? base (sortPipes entries) 1 i,
      Nat.add_comm 1 i]

/-- C3 counterexample:  With label text `"prefab 5.5.5"` the parsed
base is `"5.5.5"`, but the committed `Comments` value of a Pipe Fittings row
is the raw label text `"prefab 5.5.5"`, which differs from the parsed
base. -/
theorem c3_raw_text_committed :
    updateComments "prefab 5.5.5" [⟨some 7, "Pipe Fittings", "5.5.5"⟩]
        [⟨7, "old", false⟩] =
      [⟨7, "prefab 5.5.5", false⟩] ∧
    parseBase "prefab 5.5.5" = some "5.5.5" ∧
    ("prefab 5.5.5" : String) ≠ "5.5.5" :=
  ⟨by with_unfolding_all rfl, by with_unfolding_all rfl,
   of_decide_eq_true (by with_unfolding_all rfl)⟩

/-- C3 amended:  Every Pipe Fittings row receives as final committed
code exactly the raw label text `result["TextNote"]` (not the parsed
digits-and-dots run), overriding any prior value on every writable matching
element; non-fitting rows keep their edited NewCode. -/
theorem c3_fitting_commit_value :
    (∀ (textNote : String) (r : RowE), r.category = "Pipe Fittings" →
      committedCode textNote r = textNote) ∧
    (∀ (textNote : String) (r : RowE), r.category ≠ "Pipe Fittings" →
      committedCode textNote r = r.newCode) ∧
    (∀ (textNote : String) (elems : List DocElem) (r : RowE) (i : Nat),
      r.category = "Pipe Fittings" → r.id = some i →
      commitRow textNote elems r =
        elems.map fun e =>
          if e.id = i ∧ ¬e.readOnly then { e with comments := textNote }
          else e) := by
  refine ⟨?_, ?_, ?_⟩
  · intro tn r h
    simp [committedCode, h]
  · intro tn r h
    simp [committedCode, h]
  · intro tn elems r i hc hi
    simp [commitRow, hi, committedCode, hc]

/-- C3 amended witness, at the counterexample inputs. -/
theorem c3_fitting_commit_value_witness :
    committedCode "prefab 5.5.5" ⟨some 7, "Pipe Fittings", "old"⟩ =
      "prefab 5.5.5" ∧
    committedCode "prefab 5.5.5" ⟨some 8, "Pipes", "5.5.5.1"⟩ = "5.5.5.1" ∧
    commitRow "prefab 5.5.5" [⟨7, "old", false⟩]
        ⟨some 7, "Pipe Fittings", "old"⟩ =
      [⟨7, "prefab 5.5.5", false⟩] :=
  ⟨c3_fitting_commit_value.1 _ _ rfl,
   c3_fitting_commit_value.2.1 _ _ (of_decide_eq_true (by with_unfolding_all rfl)),
   (c3_fitting_commit_value.2.2 "prefab 5.5.5" [⟨7, "old", false⟩]
        ⟨some 7, "Pipe Fittings", "old"⟩ 7 rfl rfl).trans
      (by with_unfolding_all rfl)⟩

/-- C7 counterexample:  With base `"5.1.1"` colliding with an existing
view name, the workflow is blocked — but the `Update Comments` transaction
and the text-note placement have already committed, so the document is not
unchanged at the point the collision is detected. -/
theorem c7_mutation_before_collision :
    mainCommitPhase "5.1.1" false [⟨some 7, "Pipe Fittings", "x"⟩]
        ⟨[⟨7, "old", false⟩], [], ["5.1.1"], []⟩ =
      (⟨[⟨7, "5.1.1", false⟩], ["5.1.1"], ["5.1.1"], []⟩,
        Outcome7.duplicateViewName) ∧
    ([⟨7, "5.1.1", false⟩] : List DocElem) ≠ [⟨7, "old", false⟩] :=
  ⟨by with_unfolding_all rfl, of_decide_eq_true (by with_unfolding_all rfl)⟩

/-- C7 amended:  A base-code collision with an existing view name (or
sheet number) blocks the remaining view/sheet creation — the view list
(resp. sheet list) is not extended by that step — but the already committed
mutations persist: the `Comments` updates and the placed text note (and, on
a sheet-number collision, the duplicated view) remain in the document. -/
theorem c7_collision_blocks_after_commit :
    ∀ (textNote : String) (notePlaced : Bool) (rows : List RowE) (d : Doc7),
      (mainBase textNote ∈ d.views →
        mainCommitPhase textNote notePlaced rows d =
          ({ d with
              elems := updateComments textNote rows d.elems
              notes := if notePlaced then d.notes else d.notes ++ [textNote] },
            Outcome7.duplicateViewName)) ∧
      (mainBase textNote ∉ d.views → mainBase textNote ∈ d.sheets →
        mainCommitPhase textNote notePlaced rows d =
          ({ d with
              elems := updateComments textNote rows d.elems
              notes := if notePlaced then d.notes else d.notes ++ [textNote]
              views := d.views ++ [mainBase textNote] },
            Outcome7.duplicateSheet)) := by
  intro tn np rows d
  constructor
  · intro hv
    cases np <;> simp [mainCommitPhase, hv]
  · intro hv hs
    cases np <;> simp [mainCommitPhase, hv, hs]

/-- C7 amended witness: a sheet-number collision after the comments
commit, the note placement and the view duplication. -/
theorem c7_collision_blocks_after_commit_witness :
    mainCommitPhase "5.1.1" false [⟨some 7, "Pipe Fittings", "x"⟩]
        ⟨[⟨7, "old", false⟩], [], [], ["5.1.1"]⟩ =
      (⟨[⟨7, "5.1.1", false⟩], ["5.1.1"], ["5.1.1"], ["5.1.1"]⟩,
        Outcome7.duplicateSheet) :=
  ((c7_collision_blocks_after_commit "5.1.1" false
        [⟨some 7, "Pipe Fittings", "x"⟩]
        ⟨[⟨7, "old", false⟩], [], [], ["5.1.1"]⟩).2
      (of_decide_eq_true (by with_unfolding_all rfl))
      (of_decide_eq_true (by with_unfolding_all rfl))).trans
    (by with_unfolding_all rfl)

/-- C8 counterexample:  For the unparsable label `"no code here"` the
auto-fill action is indeed blocked with the grid untouched, but the main
workflow renumber pass silently substitutes default base `"0"` and assigns
pipe code `"0.1"` instead of blocking. -/
theorem c8_main_workflow_default_base :
    parseBase "no code here" = none ∧
    autoFillPipeTagCodes "no code here" [⟨"Pipes", "c", ⟨0, 0, 0⟩⟩] =
      ([⟨"Pipes", "c", ⟨0, 0, 0⟩⟩], true) ∧
    mainRenumber "no code here" [⟨0, 3, 4⟩] = [(0, "0.1")] :=
  ⟨by with_unfolding_all rfl, by with_unfolding_all rfl,
   by with_unfolding_all rfl⟩

/-- C8 amended:  When the label text contains no digits-and-dots run,
the auto-fill grid action is blocked with a notification and leaves the grid
untouched; the final renumber pass of the main workflow, however, does not block:
it replaces the missing base by the default `"0"`. -/
theorem c8_autofill_blocked_main_defaults :
    (∀ (raw : String) (rows : List FillRow), parseBase raw = none →
      autoFillPipeTagCodes raw rows = (rows, true)) ∧
    (∀ raw : String, parseBase raw = none → mainRenumberBase raw = "0") := by
  constructor
  · intro raw rows h
    simp [autoFillPipeTagCodes, h]
  · intro raw h
    simp [mainRenumberBase, h]

/-- C8 amended witness, at label `"no code here"`. -/
theorem c8_autofill_blocked_main_defaults_witness :
    autoFillPipeTagCodes "no code here" [] = ([], true) ∧
    mainRenumberBase "no code here" = "0" :=
  ⟨c8_autofill_blocked_main_defaults.1 "no code here" []
      (by with_unfolding_all rfl),
   c8_autofill_blocked_main_defaults.2 "no code here"
      (by with_unfolding_all rfl)⟩

/-- C10 witness: one element with no box at all, one whose `Min.X` is
infinite. -/
theorem c10_degenerate_region_box_witness :
    get_region_bounding_box [⟨none⟩, ⟨some ⟨none, some 1, some 2, 3, 4, 5⟩⟩] =
      (⟨0, 0, 0⟩, ⟨0, 0, 0⟩) ∧
    textNoteCorner [⟨none⟩, ⟨some ⟨none, some 1, some 2, 3, 4, 5⟩⟩] = ⟨0, 0, 0⟩ :=
  c10_degenerate_region_box _ (by
    intro e he
    rcases List.mem_cons.mp he with rfl | he2
    · exact Or.inl rfl
    · rcases List.mem_cons.mp he2 with rfl | h0
      · exact Or.inr ⟨_, rfl, Or.inl rfl⟩
      · exact absurd h0 (List.not_mem_nil e))

/-- C4 counterexample:  Three untagged Pipes rows, the middle host
deleted externally: the bulk handler tags the first row, then raises
`AttributeError` on the missing host; the third row is never processed and
stays untagged, and no `{updated, skipped}` count is produced (the handler
returns no counts at all) — contradicting the claimed `2 updated / 1
skipped` report with both survivors tagged. -/
theorem c4_bulk_aborts_on_missing_host :
    bulkAddRemoveTags
        { doc := { hosts := [(1, (⟨0, 0, 0⟩, ⟨2, 2, 0⟩)), (3, (⟨4, 0, 0⟩, ⟨6, 2, 0⟩))]
                   markers := []
                   nextId := 100 }
          rows := [⟨1, "Pipes", "Add/Place Tag"⟩, ⟨2, "Pipes", "Add/Place Tag"⟩,
                   ⟨3, "Pipes", "Add/Place Tag"⟩] } =
      ({ doc := { hosts := [(1, (⟨0, 0, 0⟩, ⟨2, 2, 0⟩)), (3, (⟨4, 0, 0⟩, ⟨6, 2, 0⟩))]
                  markers := [⟨100, 1, ⟨1, 1, 0⟩⟩]
                  nextId := 101 }
         rows := [⟨1, "Pipes", "Remove Tag"⟩, ⟨2, "Pipes", "Add/Place Tag"⟩,
                  ⟨3, "Pipes", "Add/Place Tag"⟩,
                  ⟨100, "Pipe Tags", "Remove Tag"⟩] },
       some "AttributeError") := by
  with_unfolding_all rfl

/-- C4 amended:  The bulk tag pass processes rows sequentially and does
not continue on error: as soon as it reaches an `Add/Place Tag` row whose
host entity no longer exists, the raised `AttributeError` aborts the
handler, the rows after it are never processed, and no
`{updated, skipped}` count is reported (only the separate Fix Reducers
action counts updates and skips). -/
theorem c4_bulk_error_short_circuits :
    ∀ (st : TagState) (r : GRow) (rest : List GRow),
      r.tagStatus = "Add/Place Tag" → lookupHost st.doc r.id = none →
      bulkLoop st (r :: rest) = (st, some "AttributeError") := by
  intro st r rest hval hhost
  simp [bulkLoop, bulkStep, hval, addTagClick, hhost]

/-- C4 amended witness: an empty document, one missing host, one
further row that is never reached. -/
theorem c4_bulk_error_short_circuits_witness :
    bulkLoop
        { doc := { hosts := [], markers := [], nextId := 0 }, rows := [] }
        [⟨5, "Pipes", "Add/Place Tag"⟩, ⟨6, "Pipes", "Add/Place Tag"⟩] =
      ({ doc := { hosts := [], markers := [], nextId := 0 }, rows := [] },
       some "AttributeError") :=
  c4_bulk_error_short_circuits _ _ _ rfl (by with_unfolding_all rfl)

theorem setPipeStatus_round (hostId : Nat) (r : GRow)
    (hr : r.category = "Pipes" → r.id = hostId →
      r.tagStatus = "Add/Place Tag") :
    setPipeStatus hostId "Add/Place Tag" (setPipeStatus hostId "Remove Tag" r) =
      r := by
  by_cases hc : r.category = "Pipes" ∧ r.id = hostId
  · obtain ⟨h1, h2⟩ := hc
    cases r
    simp_all [setPipeStatus]
  · simp [setPipeStatus, hc]

/-- C5:  Starting from an `Untagged` host (status `Add/Place Tag`, no
marker tagging it in the document, fresh next element id), `AddTag` followed
by `RemoveTag` on the same host restores the marker set and the entire grid
row list — the created marker is deleted, no residual marker row remains,
the row count returns to its pre-AddTag value, and the host row is back to
`Untagged`; only the id counter of the document has advanced. -/
theorem c5_add_remove_round_trip :
    ∀ (hostId : Nat) (st : TagState) (bb : Pt3 × Pt3),
      lookupHost st.doc hostId = some bb →
      (∀ m ∈ st.doc.markers, m.hostId ≠ hostId) →
      (∀ m ∈ st.doc.markers, m.id ≠ st.doc.nextId) →
      (∀ r ∈ st.rows, ¬(r.category = "Pipe Tags" ∧ r.id = st.doc.nextId)) →
      (∀ r ∈ st.rows, r.category = "Pipes" → r.id = hostId →
        r.tagStatus = "Add/Place Tag") →
      (addTagClick hostId st).map (removeTagClick hostId) =
        Except.ok { st with doc := { st.doc with nextId := st.doc.nextId + 1 } } := by
  intro hostId st bb hbb hm1 hm2 hr1 hr2
  obtain ⟨⟨hosts, markers, nid⟩, rows⟩ := st
  simp only at hbb hm1 hm2 hr1 hr2
  simp only [addTagClick, hbb, Except.map]
  refine congrArg Except.ok ?_
  have hfind :
      (markers ++ [(⟨nid, hostId, bboxCenter bb⟩ : MarkerE)]).find?
        (fun m => m.hostId = hostId) = some ⟨nid, hostId, bboxCenter bb⟩ := by
    rw [List.find?_append]
    have h1 : markers.find? (fun m => decide (m.hostId = hostId)) = none :=
      List.find?_eq_none.mpr (fun x hx => by simp [hm1 x hx])
    simp [h1]
  simp only [removeTagClick, hfind]
  have herase :
      (markers ++ [(⟨nid, hostId, bboxCenter bb⟩ : MarkerE)]).eraseP
        (fun t => t.id = nid) = markers := by
    rw [List.eraseP_append_right _ (fun b hb => by simp [hm2 b hb])]
    simp
  have hrows :
      ((rows.map (setPipeStatus hostId "Remove Tag") ++
          [(⟨nid, "Pipe Tags", "Remove Tag"⟩ : GRow)]).map
        (setPipeStatus hostId "Add/Place Tag")).eraseP
          (fun r => r.category = "Pipe Tags" ∧ r.id = nid) = rows := by
    rw [List.map_append, List.map_map]
    have hnew :
        [(⟨nid, "Pipe Tags", "Remove Tag"⟩ : GRow)].map
          (setPipeStatus hostId "Add/Place Tag") =
        [(⟨nid, "Pipe Tags", "Remove Tag"⟩ : GRow)] := by
      simp [setPipeStatus]
    rw [hnew]
    have hcong : ∀ r ∈ rows,
        (setPipeStatus hostId "Add/Place Tag" ∘
          setPipeStatus hostId "Remove Tag") r = id r :=
      fun r hr => setPipeStatus_round hostId r (hr2 r hr)
    have hpre := (List.map_congr_left hcong).trans (List.map_id rows)
    rw [hpre]
    rw [List.eraseP_append_right _ (fun b hb => by
      have := hr1 b hb
      simpa using this)]
    simp
  simp only [herase, hrows]

/-- C5 witness: a two-row grid with an unrelated pre-existing marker on
another host. -/
theorem c5_add_remove_round_trip_witness :
    (addTagClick 1
        { doc := { hosts := [(1, (⟨0, 0, 0⟩, ⟨2, 2, 0⟩))]
                   markers := [⟨50, 9, ⟨0, 0, 0⟩⟩]
                   nextId := 100 }
          rows := [⟨1, "Pipes", "Add/Place Tag"⟩,
                   ⟨9, "Pipes", "Remove Tag"⟩] }).map (removeTagClick 1) =
      Except.ok
        { doc := { hosts := [(1, (⟨0, 0, 0⟩, ⟨2, 2, 0⟩))]
                   markers := [⟨50, 9, ⟨0, 0, 0⟩⟩]
                   nextId := 101 }
          rows := [⟨1, "Pipes", "Add/Place Tag"⟩,
                   ⟨9, "Pipes", "Remove Tag"⟩] } :=
  c5_add_remove_round_trip 1 _ (⟨0, 0, 0⟩, ⟨2, 2, 0⟩)
    (by with_unfolding_all rfl)
    (by decide) (by decide) (by decide)
    (by decide)

end SmartSanitary
